import Mathlib

/-!
Verification of the aiofluent sender (`aiofluent/sender.py`).

The development shallowly embeds the module's core: the `EventTime` codec
(`struct.pack`/`unpack` of two big-endian uint32 fields), the packet builder,
and the `FluentSender` send/retry pipeline (`get_writer`, `_async_send`,
`_async_send_internal`, `clean`, `close`, the `last_error` property).

Modelling conventions:
- byte strings are `List Nat` (each entry a byte value);
- wall-clock times (`time.time()`) are rationals, supplied per operation;
- Python exceptions relevant to the pipeline are the inductive `PyExc`;
  raising is an `Except` value, the `try/except` blocks of the source are
  translated branch by branch;
- the outcomes of the two external effects (the connection factory and the
  socket write/drain) are inputs (`SendEnv`), so every code path of the
  source is reachable in the model;
- the buffer-overflow handler is observed through the list of payloads the
  sender passes to it (`overflowCalls`), recorded only when a handler is
  configured, mirroring `_call_buffer_overflow_handler`.
-/

namespace Aiofluent

/-! ## EventTime codec (`EventTime`, `struct.pack(">II", ...)`) -/

/-- One big-endian 4-byte group, as produced by `struct.pack(">I", n)`. -/
def pack_u32_be (n : Nat) : List Nat :=
  [n / 16777216 % 256, n / 65536 % 256, n / 256 % 256, n % 256]

/-- Big-endian decoding of a 4-byte group, as by `struct.unpack(">I", b)`. -/
def unpack_u32_be (l : List Nat) : Nat :=
  match l with
  | [a, b, c, d] => ((a * 256 + b) * 256 + c) * 256 + d
  | _ => 0

/-- Model of `struct.pack(">II", a, b)`: `none` models the `struct.error` raised when a
value does not fit an unsigned 32-bit field. -/
def struct_pack_II (a b : Int) : Option (List Nat) :=
  if 0 ≤ a ∧ a < 4294967296 ∧ 0 ≤ b ∧ b < 4294967296 then
    some (pack_u32_be a.toNat ++ pack_u32_be b.toNat)
  else none

/-- Model of `struct.unpack(">II", l)`: fails unless the input is exactly 8 bytes. -/
def struct_unpack_II (l : List Nat) : Option (Nat × Nat) :=
  if l.length = 8 then some (unpack_u32_be (l.take 4), unpack_u32_be (l.drop 4))
  else none

/-- Python `int(q)`: truncation toward zero. -/
def pyInt (q : Rat) : Int := if 0 ≤ q then ⌊q⌋ else ⌈q⌉

/-- Python `q % 1` for a float: the remainder with the sign of the modulus,
`q - ⌊q⌋`. -/
def pyMod1 (q : Rat) : Rat := q - ⌊q⌋

/-- Model of `msgpack.ExtType`: a type code together with a byte payload. -/
structure ExtType where
  code : Int
  data : List Nat
deriving DecidableEq, Repr

/-- Model of `EventTime.__new__`: `seconds = int(timestamp)`,
`nanoseconds = int(timestamp % 1 * 10 ** 9)`, payload
`struct.pack(">II", seconds, nanoseconds)` with extension code 0.
`none` models the propagating `struct.error` on out-of-range values. -/
def EventTime.new (timestamp : Rat) : Option ExtType :=
  let seconds : Int := pyInt timestamp
  let nanoseconds : Int := pyInt (pyMod1 timestamp * 10 ^ 9)
  (struct_pack_II seconds nanoseconds).map (fun d => ⟨0, d⟩)

/-- Model of `EventTime.from_bytes`: unpack two uint32-be and return
`seconds + nanoseconds / 10 ** 9`. -/
def EventTime.from_bytes (b : List Nat) : Option Rat :=
  (struct_unpack_II b).map (fun p => (p.1 : Rat) + (p.2 : Rat) / 10 ^ 9)

/-! ## Exceptions -/

/-- The exception classes distinguished by the sender's `except` clauses.
`cancelledError` models `asyncio.CancelledError`, which derives
`BaseException` (not `Exception`) in the asyncio versions this module
targets; `serializationError` stands for an exception raised by
`msgpack.packb`; `otherError` is any other `Exception`. -/
inductive PyExc
  | socketError
  | timeoutError
  | cancelledError
  | osError
  | blockingIOError
  | otherError
  | serializationError
deriving DecidableEq, Repr

/-- Membership in the tuple
`(socket.error, asyncio.TimeoutError, asyncio.CancelledError, OSError, BlockingIOError)`
of `_async_send_internal`'s first `except` clause. -/
def PyExc.isTransportExc : PyExc → Bool
  | .socketError => true
  | .timeoutError => true
  | .cancelledError => true
  | .osError => true
  | .blockingIOError => true
  | _ => false

/-- Whether the exception is an instance of `Exception` (everything here
except `asyncio.CancelledError`, which derives `BaseException`). -/
def PyExc.isExceptionClass : PyExc → Bool
  | .cancelledError => false
  | _ => true

/-! ## Sender state (`FluentSender.__init__`) -/

/-- The mutable and configuration state of a `FluentSender`.  The reader and
writer handles are modelled by their presence; the lazily created lock is
omitted (all modelled operations are sequential). -/
structure Sender where
  tag : String
  bufmax : Nat
  timeout : Rat
  retry_timeout : Rat
  error_count_limit : Nat
  hasOverflowHandler : Bool
  pendings : Option (List Nat)
  reader : Bool
  writer : Bool
  last_error : Option PyExc
  last_error_time : Rat
  error_count : Nat
deriving DecidableEq, Repr

/-- Model of `FluentSender.__init__`: fresh state for a given configuration. -/
def mkSender (tag : String) (bufmax : Nat) (timeout retry_timeout : Rat)
    (error_count_limit : Nat) (hasOverflowHandler : Bool) : Sender :=
  { tag := tag
    bufmax := bufmax
    timeout := timeout
    retry_timeout := retry_timeout
    error_count_limit := error_count_limit
    hasOverflowHandler := hasOverflowHandler
    pendings := none
    reader := false
    writer := false
    last_error := none
    last_error_time := 0
    error_count := 0 }

/-- Model of `FluentSender.clear_last_error`. -/
def clear_last_error (s : Sender) : Sender :=
  { s with last_error := none, last_error_time := 0 }

/-- The `last_error` property setter: a non-`None` error is stored together
with the current time; assigning `None` delegates to `clear_last_error`. -/
def set_last_error (s : Sender) (err : Option PyExc) (now : Rat) : Sender :=
  match err with
  | some e => { s with last_error := some e, last_error_time := now }
  | none => clear_last_error s

/-- Model of `FluentSender.close`: drops both connection handles when a writer is
open (the `RuntimeError` from `writer.close()` is swallowed by the source
and needs no modelling); a no-op otherwise. -/
def Sender.close (s : Sender) : Sender :=
  if s.writer then { s with reader := false, writer := false } else s

/-- Python truthiness of the `_pendings` field: `None` and `b''` are falsy. -/
def pendingsTruthy (p : Option (List Nat)) : Bool :=
  match p with
  | some l => !l.isEmpty
  | none => false

/-- Model of `FluentSender.clean`: when a pending buffer exists and exceeds `bufmax`,
hand it to the overflow handler and drop it; otherwise store the given bytes
as the new pending buffer.  The second component lists the payloads passed
to a configured overflow handler. -/
def clean (s : Sender) (b : List Nat) : Sender × List (List Nat) :=
  if pendingsTruthy s.pendings ∧ s.bufmax < (s.pendings.getD []).length then
    ({ s with pendings := none },
     if s.hasOverflowHandler then [s.pendings.getD []] else [])
  else
    ({ s with pendings := some b }, [])

/-! ## Connection acquisition (`FluentSender.get_writer`) -/

/-- Outcome of one invocation of the connection factory.  The default
`connection_factory` catches every exception, records it through the
`last_error` setter and returns `None`; `fail e` carries the exception it
recorded. -/
inductive ConnectOutcome
  | ok
  | fail (e : PyExc)
deriving DecidableEq, Repr

/-- The environment of one send: the wall-clock time, the outcome the
connection factory would have, and the exception (if any) raised by
`writer.write` / `drain`. -/
structure SendEnv where
  now : Rat
  connect : ConnectOutcome
  write : Option PyExc
deriving DecidableEq, Repr

/-- Result of `get_writer`: whether a writer was returned, the updated
state, and how many times the connection factory was invoked. -/
structure GWResult where
  writer : Bool
  state : Sender
  factoryCalls : Nat
deriving DecidableEq, Repr

/-- Model of `FluentSender.get_writer`: return the open writer if any; otherwise
refuse while `last_error_time + retry_timeout > time.time()`; otherwise run
the connection factory, storing the handles and resetting `error_count` on
success, and recording the failure (as the default factory does) otherwise. -/
def get_writer (s : Sender) (now : Rat) (co : ConnectOutcome) : GWResult :=
  if s.writer then ⟨true, s, 0⟩
  else if now < s.last_error_time + s.retry_timeout then ⟨false, s, 0⟩
  else
    match co with
    | .ok => ⟨true, { s with reader := true, writer := true, error_count := 0 }, 1⟩
    | .fail e => ⟨false, set_last_error s (some e) now, 1⟩

/-! ## Send pipeline (`_async_send_internal`, `_async_send`) -/

/-- The buffering prologue of `_async_send_internal`: when `_pendings` is
truthy, append the new bytes to it and operate on the combined payload. -/
def buffered (s : Sender) (bytes : List Nat) : Sender × List Nat :=
  if pendingsTruthy s.pendings then
    ({ s with pendings := some (s.pendings.getD [] ++ bytes) },
     s.pendings.getD [] ++ bytes)
  else (s, bytes)

deriving instance DecidableEq for Except

/-- Result of `_async_send_internal`: the returned value or a propagating
exception, the updated state, and the overflow-handler invocations. -/
structure SendResult where
  result : Except PyExc Bool
  state : Sender
  overflowCalls : List (List Nat)
deriving DecidableEq, Repr

/-- Model of `FluentSender._async_send_internal`, branch by branch: coalesce into the
pending buffer; acquire a writer (`None` → `clean`, return `False`); write
and drain — on success clear the buffer and the cooldown and return `True`;
a transport-class exception records the error, runs `clean` and closes; any
other `Exception` bumps `error_count`, records the error, runs `clean` and
closes only past `error_count_limit`; anything else propagates. -/
def async_send_internal (s0 : Sender) (bytes0 : List Nat) (env : SendEnv) :
    SendResult :=
  let sb := buffered s0 bytes0
  let gw := get_writer sb.1 env.now env.connect
  if gw.writer = false then
    let c := clean gw.state sb.2
    ⟨.ok false, c.1, c.2⟩
  else
    match env.write with
    | none => ⟨.ok true, { gw.state with pendings := none, last_error_time := 0 }, []⟩
    | some e =>
      if e.isTransportExc then
        let s1 := set_last_error gw.state (some e) env.now
        let c := clean s1 sb.2
        ⟨.ok false, Sender.close c.1, c.2⟩
      else if e.isExceptionClass then
        let s1 := { gw.state with error_count := gw.state.error_count + 1 }
        let s2 := set_last_error s1 (some e) env.now
        let c := clean s2 sb.2
        ⟨.ok false,
         if c.1.error_count_limit < c.1.error_count then Sender.close c.1 else c.1,
         c.2⟩
      else ⟨.error e, gw.state, []⟩

/-- Result of `_async_send`: `.ok (some b)` is a returned boolean,
`.ok none` is the `result = None` taken when `except Exception` fires,
`.error e` is a propagating exception. -/
structure ASResult where
  result : Except PyExc (Option Bool)
  state : Sender
  overflowCalls : List (List Nat)
deriving DecidableEq, Repr

/-- Model of `FluentSender._async_send`: forward `_async_send_internal`'s result; an
escaping `Exception` becomes `result = None`; anything else propagates. -/
def async_send (s : Sender) (bytes : List Nat) (env : SendEnv) : ASResult :=
  let r := async_send_internal s bytes env
  match r.result with
  | .ok b => ⟨.ok (some b), r.state, r.overflowCalls⟩
  | .error e =>
    if e.isExceptionClass then ⟨.ok none, r.state, r.overflowCalls⟩
    else ⟨.error e, r.state, r.overflowCalls⟩

/-! ## Packet builder and emit (`_make_packet`, `async_emit_with_time`) -/

/-- MessagePack-encodable values, as far as the sender constructs them. -/
inductive MP
  | str (s : String)
  | intV (n : Int)
  | ext (code : Int) (data : List Nat)
  | arr (l : List MP)
  | mp (l : List (MP × MP))

/-- The substitute record built when serializing the caller's record raised:
`{"level": "CRITICAL", "message": "Can't output to log", "traceback": ...}`
(`tb` is the `traceback.format_exc()` text). -/
def diagRecord (tb : String) : MP :=
  .mp [(.str "level", .str "CRITICAL"),
       (.str "message", .str "Can\x27t output to log"),
       (.str "traceback", .str tb)]

/-- Model of `FluentSender._make_packet`: join the tag with a non-empty label and
serialize the `(tag, timestamp, data)` triple; `packb` stands for
`msgpack.packb` with the sender's packer options, `none` meaning it raised. -/
def make_packet (packb : MP → Option (List Nat)) (tag label : String)
    (ts : ExtType) (data : MP) : Option (List Nat) :=
  let t := if label ≠ "" then tag ++ "." ++ label else tag
  packb (.arr [.str t, .ext ts.code ts.data, data])

/-- Model of `FluentSender.async_emit_with_time`: build the `EventTime` (its
`struct.error`, outside the `try`, propagates — outer `none`); try to build
the packet; on a serialization failure record the error and build the packet
for the substitute diagnostic record instead (a failure of that second build
also propagates); finally hand the bytes to `_async_send`. -/
def async_emit_with_time (packb : MP → Option (List Nat)) (tb : String)
    (s : Sender) (label : String) (timestamp : Rat) (data : MP)
    (env : SendEnv) : Option ASResult :=
  match EventTime.new timestamp with
  | none => none
  | some et =>
    match make_packet packb s.tag label et data with
    | some bytes => some (async_send s bytes env)
    | none =>
      let s1 := set_last_error s (some .serializationError) env.now
      match make_packet packb s1.tag label et (diagRecord tb) with
      | some bytes => some (async_send s1 bytes env)
      | none => none

/-! ## Reachable sender states -/

/-- One sender operation, relating a state to a possible successor. -/
inductive Step : Sender → Sender → Prop
  | send (s : Sender) (bytes : List Nat) (env : SendEnv) :
      Step s (async_send s bytes env).state
  | acquire (s : Sender) (now : Rat) (co : ConnectOutcome) :
      Step s (get_writer s now co).state
  | closeOp (s : Sender) : Step s s.close
  | clearErr (s : Sender) : Step s (clear_last_error s)
  | setErr (s : Sender) (e : Option PyExc) (now : Rat) :
      Step s (set_last_error s e now)
  | emit (s : Sender) (packb : MP → Option (List Nat)) (tb label : String)
      (ts : Rat) (data : MP) (env : SendEnv) (r : ASResult) :
      async_emit_with_time packb tb s label ts data env = some r →
      Step s r.state

/-- States reachable from a freshly constructed sender by any sequence of
operations. -/
inductive Reachable : Sender → Prop
  | init (tag : String) (bufmax : Nat) (timeout retry_timeout : Rat)
      (error_count_limit : Nat) (hasOverflowHandler : Bool) :
      Reachable (mkSender tag bufmax timeout retry_timeout error_count_limit
        hasOverflowHandler)
  | step {s s' : Sender} : Reachable s → Step s s' → Reachable s'

/-! ## Derived notions used by the statements -/

/-- Iterated sends: fold `_async_send` over a list of payload/environment
pairs, keeping only the state. -/
def sendSeq (s : Sender) (ops : List (List Nat × SendEnv)) : Sender :=
  ops.foldl (fun st op => (async_send st op.1 op.2).state) s

/-- Whether a write outcome is an internal (non-transport) `Exception`,
i.e. one landing in `_async_send_internal`'s second `except` clause. -/
def isInternalWrite (w : Option PyExc) : Bool :=
  match w with
  | some e => !e.isTransportExc && e.isExceptionClass
  | none => false

/-- A `msgpack.packb` stand-in that fails exactly on packets whose record is
a bare integer; it serializes everything else (in particular the substitute
diagnostic record).  Used to exercise the serialization-fallback path on a
concrete input. -/
def packbFailInt (v : MP) : Option (List Nat) :=
  match v with
  | .arr [_, _, .intV _] => none
  | _ => some [7]

/-- Concrete run: a sender whose connect failed at time 100 and whose next
send, at time 200, connected and succeeded. -/
def afterFailThenSuccess : Sender :=
  (async_send (async_send (mkSender "app" 1048576 3 30 10 false) [1]
      ⟨100, .fail .otherError, none⟩).state [2] ⟨200, .ok, none⟩).state

/-- Concrete run: a sender that connected at time 100 and then hit an
internal (non-transport) exception while writing. -/
def afterInternalFail : Sender :=
  (async_send (mkSender "app" 1048576 3 30 10 false) [1]
      ⟨100, .ok, some .otherError⟩).state

end Aiofluent

/-! ## Theorems -/

namespace Aiofluent

lemma unpack_pack_u32 (n : Nat) (h : n < 4294967296) :
    unpack_u32_be (pack_u32_be n) = n := by
  simp only [pack_u32_be, unpack_u32_be]
  omega

lemma pack_u32_length (n : Nat) : (pack_u32_be n).length = 4 := rfl

lemma struct_unpack_pack (a b : Nat) :
    struct_unpack_II (pack_u32_be a ++ pack_u32_be b) =
      some (unpack_u32_be (pack_u32_be a), unpack_u32_be (pack_u32_be b)) := by
  have hl : (pack_u32_be a ++ pack_u32_be b).length = 8 := by
    simp [pack_u32_be]
  have ht : (pack_u32_be a ++ pack_u32_be b).take 4 = pack_u32_be a := by
    rw [← pack_u32_length a, List.take_left]
  have hd : (pack_u32_be a ++ pack_u32_be b).drop 4 = pack_u32_be b := by
    rw [← pack_u32_length a, List.drop_left]
  rw [struct_unpack_II, if_pos hl, ht, hd]

end Aiofluent

namespace Aiofluent

/-- Claim C2: for every timestamp t with 0 ≤ t < 2^32 and sub-second
precision of at least 1 ns granularity (t·10⁹ is an integer), decoding the
8-byte payload produced by `EventTime(t)` with `EventTime.from_bytes` yields
a value equal to t within 1e-9 (in fact exactly equal to t). -/
theorem eventtime_roundtrip (t : Rat) (h0 : 0 ≤ t) (h1 : t < 4294967296)
    (hg : (t * 10 ^ 9).den = 1) :
    ∃ et : ExtType, EventTime.new t = some et ∧
      ∃ d : Rat, EventTime.from_bytes et.data = some d ∧
        d = t ∧ |d - t| ≤ 1 / 10 ^ 9 := by
  have hk : ((t * 10 ^ 9).num : Rat) = t * 10 ^ 9 := (Rat.den_eq_one_iff _).mp hg
  obtain ⟨q, r, hqr, hr0, hr1⟩ :
      ∃ q r : Int, 10 ^ 9 * q + r = (t * 10 ^ 9).num ∧ 0 ≤ r ∧ r < 10 ^ 9 :=
    ⟨(t * 10 ^ 9).num / 10 ^ 9, (t * 10 ^ 9).num % 10 ^ 9,
      Int.ediv_add_emod _ _, Int.emod_nonneg _ (by norm_num),
      Int.emod_lt_of_pos _ (by norm_num)⟩
  have hknn : (0 : Int) ≤ (t * 10 ^ 9).num := by
    have : (0 : Rat) ≤ ((t * 10 ^ 9).num : Rat) := by
      rw [hk]; positivity
    exact_mod_cast this
  have hkub : (t * 10 ^ 9).num < 4294967296 * 10 ^ 9 := by
    have h : ((t * 10 ^ 9).num : Rat) < 4294967296 * 10 ^ 9 := by
      rw [hk]
      have := mul_lt_mul_of_pos_right h1 (show (0 : Rat) < 10 ^ 9 by norm_num)
      linarith
    exact_mod_cast h
  have hq0 : 0 ≤ q := by omega
  have hq1 : q < 4294967296 := by omega
  have ht : t = (q : Rat) + (r : Rat) / 10 ^ 9 := by
    have h9 : (10 ^ 9 : Rat) ≠ 0 := by norm_num
    have hcast : (10 ^ 9 : Rat) * (q : Rat) + (r : Rat) = t * 10 ^ 9 := by
      rw [← hk]
      exact_mod_cast congrArg (fun z : Int => (z : Rat)) hqr
    field_simp
    linarith
  have hfr0 : (0 : Rat) ≤ (r : Rat) / 10 ^ 9 := by positivity
  have hfr1 : (r : Rat) / 10 ^ 9 < 1 := by
    rw [div_lt_one (by norm_num : (0 : Rat) < 10 ^ 9)]
    exact_mod_cast hr1
  have hfloor : ⌊t⌋ = q := by
    rw [ht, Int.floor_int_add]
    have : ⌊(r : Rat) / 10 ^ 9⌋ = 0 :=
      Int.floor_eq_zero_iff.mpr ⟨hfr0, hfr1⟩
    omega
  have hseconds : pyInt t = q := by rw [pyInt, if_pos h0, hfloor]
  have hmod : pyMod1 t * 10 ^ 9 = (r : Rat) := by
    rw [pyMod1, hfloor, ht]
    field_simp
    ring
  have hnanos : pyInt (pyMod1 t * 10 ^ 9) = r := by
    rw [hmod, pyInt, if_pos (by exact_mod_cast hr0), Int.floor_intCast]
  have hpack : struct_pack_II (pyInt t) (pyInt (pyMod1 t * 10 ^ 9)) =
      some (pack_u32_be q.toNat ++ pack_u32_be r.toNat) := by
    rw [hseconds, hnanos, struct_pack_II,
      if_pos ⟨hq0, hq1, hr0, by omega⟩]
  have hnew : EventTime.new t = some ⟨0, pack_u32_be q.toNat ++ pack_u32_be r.toNat⟩ := by
    show (struct_pack_II (pyInt t) (pyInt (pyMod1 t * 10 ^ 9))).map
        (fun d => (⟨0, d⟩ : ExtType)) = _
    rw [hpack]
    rfl
  refine ⟨_, hnew, ?_⟩
  have hqn : q.toNat < 4294967296 := by omega
  have hrn : r.toNat < 4294967296 := by omega
  have hq' : ((q.toNat : Rat)) = (q : Rat) := by
    exact_mod_cast congrArg (fun z : Int => (z : Rat)) (Int.toNat_of_nonneg hq0)
  have hr' : ((r.toNat : Rat)) = (r : Rat) := by
    exact_mod_cast congrArg (fun z : Int => (z : Rat)) (Int.toNat_of_nonneg hr0)
  have hdec : EventTime.from_bytes (pack_u32_be q.toNat ++ pack_u32_be r.toNat) =
      some ((q.toNat : Rat) + (r.toNat : Rat) / 10 ^ 9) := by
    rw [EventTime.from_bytes, struct_unpack_pack, unpack_pack_u32 _ hqn,
      unpack_pack_u32 _ hrn]
    rfl
  refine ⟨_, hdec, ?_, ?_⟩
  · rw [ht, hq', hr']
  · have hz : (q.toNat : Rat) + (r.toNat : Rat) / 10 ^ 9 - t = 0 := by
      rw [hq', hr', ht]; ring
    rw [hz, abs_zero]
    norm_num

/-- Claim C2 witness: the round trip at the concrete timestamp 3/2. -/
theorem eventtime_roundtrip_witness :
    (0 ≤ (3 / 2 : Rat)) ∧ ((3 / 2 : Rat) < 4294967296) ∧
      (((3 / 2 : Rat) * 10 ^ 9).den = 1) ∧
      (∃ et : ExtType, EventTime.new (3 / 2 : Rat) = some et ∧
        ∃ d : Rat, EventTime.from_bytes et.data = some d ∧
          d = (3 / 2 : Rat) ∧ |d - (3 / 2 : Rat)| ≤ 1 / 10 ^ 9) :=
  ⟨by norm_num, by norm_num, by norm_num,
    eventtime_roundtrip (3 / 2) (by norm_num) (by norm_num) (by norm_num)⟩

end Aiofluent

namespace Aiofluent

/-- Claim C1: `_async_send` never raises — for every state, byte payload and
outcome of the internal send, it returns a boolean (`result = .ok (some b)`,
never a propagating exception and never the `None` of its own catch-all),
with `b = true` exactly when a writer was obtained and the write succeeded,
and `b = false` on every failure. -/
theorem async_send_never_raises (s : Sender) (bytes : List Nat) (env : SendEnv) :
    ∃ b : Bool, (async_send s bytes env).result = .ok (some b) ∧
      (b = true ↔
        (get_writer (buffered s bytes).1 env.now env.connect).writer = true
          ∧ env.write = none) := by
  by_cases hw : (get_writer (buffered s bytes).1 env.now env.connect).writer = false
  · refine ⟨false, ?_, ?_⟩
    · simp [async_send, async_send_internal, hw]
    · simp [hw]
  · rcases he : env.write with _ | e
    · refine ⟨true, ?_, ?_⟩
      · simp [async_send, async_send_internal, hw, he]
      · simp [hw, he, Bool.not_eq_false] at *
    · refine ⟨false, ?_, ?_⟩
      · cases e <;>
          simp [async_send, async_send_internal, hw, he,
            PyExc.isTransportExc, PyExc.isExceptionClass]
      · simp [he]

/-- Claim C4: with no open writer and the last error recorded at time T,
`get_writer` at a time strictly before `T + retry_timeout` returns no
connection and invokes the connection factory zero times; at or after
`T + retry_timeout` it invokes the factory (once). -/
theorem cooldown_enforcement (s : Sender) (T now : Rat) (co : ConnectOutcome)
    (hw : s.writer = false) (hT : s.last_error_time = T) :
    (now < T + s.retry_timeout →
      (get_writer s now co).writer = false ∧
        (get_writer s now co).factoryCalls = 0)
    ∧ (T + s.retry_timeout ≤ now → (get_writer s now co).factoryCalls = 1) := by
  constructor
  · intro h
    have hcond : now < s.last_error_time + s.retry_timeout := by
      rw [hT]; exact h
    simp [get_writer, hw, hcond]
  · intro h
    have hcond : ¬ now < s.last_error_time + s.retry_timeout := by
      rw [hT]; exact not_lt.mpr h
    cases co <;> simp [get_writer, hw, hcond]

/-- Claim C4 witness: a fresh sender with `retry_timeout = 30` makes no
factory call at time 5 and exactly one at time 30. -/
theorem cooldown_enforcement_witness :
    ((get_writer (mkSender "a" 10 3 30 10 false) 5 .ok).writer = false ∧
      (get_writer (mkSender "a" 10 3 30 10 false) 5 .ok).factoryCalls = 0)
    ∧ (get_writer (mkSender "a" 10 3 30 10 false) 30 .ok).factoryCalls = 1 :=
  ⟨(cooldown_enforcement _ 0 5 .ok rfl rfl).1 (by norm_num [mkSender]),
   (cooldown_enforcement _ 0 30 .ok rfl rfl).2 (by norm_num [mkSender])⟩

end Aiofluent

namespace Aiofluent

lemma buffered_fst_writer (s : Sender) (b : List Nat) :
    (buffered s b).1.writer = s.writer := by
  unfold buffered; split <;> rfl

lemma buffered_fst_frame (s : Sender) (b : List Nat) :
    (buffered s b).1.writer = s.writer ∧ (buffered s b).1.reader = s.reader ∧
    (buffered s b).1.last_error = s.last_error ∧
    (buffered s b).1.last_error_time = s.last_error_time ∧
    (buffered s b).1.error_count = s.error_count ∧
    (buffered s b).1.error_count_limit = s.error_count_limit ∧
    (buffered s b).1.bufmax = s.bufmax ∧
    (buffered s b).1.hasOverflowHandler = s.hasOverflowHandler ∧
    (buffered s b).1.tag = s.tag ∧
    (buffered s b).1.retry_timeout = s.retry_timeout := by
  unfold buffered; split <;> exact ⟨rfl, rfl, rfl, rfl, rfl, rfl, rfl, rfl, rfl, rfl⟩

lemma get_writer_state_frame (s : Sender) (now : Rat) (co : ConnectOutcome) :
    (get_writer s now co).state.pendings = s.pendings ∧
    (get_writer s now co).state.bufmax = s.bufmax ∧
    (get_writer s now co).state.hasOverflowHandler = s.hasOverflowHandler ∧
    (get_writer s now co).state.tag = s.tag ∧
    (get_writer s now co).state.error_count_limit = s.error_count_limit := by
  unfold get_writer
  split
  · exact ⟨rfl, rfl, rfl, rfl, rfl⟩
  · split
    · exact ⟨rfl, rfl, rfl, rfl, rfl⟩
    · cases co
      · exact ⟨rfl, rfl, rfl, rfl, rfl⟩
      · exact ⟨rfl, rfl, rfl, rfl, rfl⟩

lemma clean_fst_frame (s : Sender) (b : List Nat) :
    (clean s b).1.writer = s.writer ∧ (clean s b).1.reader = s.reader ∧
    (clean s b).1.last_error = s.last_error ∧
    (clean s b).1.last_error_time = s.last_error_time ∧
    (clean s b).1.error_count = s.error_count ∧
    (clean s b).1.error_count_limit = s.error_count_limit := by
  unfold clean; split <;> exact ⟨rfl, rfl, rfl, rfl, rfl, rfl⟩

lemma close_frame_fields (s : Sender) :
    s.close.pendings = s.pendings ∧ s.close.last_error = s.last_error ∧
    s.close.last_error_time = s.last_error_time ∧
    s.close.error_count = s.error_count ∧
    s.close.error_count_limit = s.error_count_limit := by
  unfold Sender.close; split <;> exact ⟨rfl, rfl, rfl, rfl, rfl⟩

lemma async_send_state_eq (s : Sender) (bytes : List Nat) (env : SendEnv) :
    (async_send s bytes env).state = (async_send_internal s bytes env).state := by
  unfold async_send
  cases hr : (async_send_internal s bytes env).result
  · simp [hr]
    split <;> rfl
  · simp [hr]

lemma async_send_overflow_eq (s : Sender) (bytes : List Nat) (env : SendEnv) :
    (async_send s bytes env).overflowCalls =
      (async_send_internal s bytes env).overflowCalls := by
  unfold async_send
  cases hr : (async_send_internal s bytes env).result
  · simp [hr]
    split <;> rfl
  · simp [hr]

lemma async_send_result_ok (s : Sender) (bytes : List Nat) (env : SendEnv)
    (x : Bool) :
    (async_send s bytes env).result = .ok (some x) ↔
      (async_send_internal s bytes env).result = .ok x := by
  unfold async_send
  cases hr : (async_send_internal s bytes env).result with
  | ok b => simp [hr]
  | error e =>
    simp only [hr]
    split <;> simp

end Aiofluent

namespace Aiofluent

lemma errInv_buffered (s : Sender) (b : List Nat)
    (h : s.last_error = none → s.last_error_time = 0) :
    (buffered s b).1.last_error = none → (buffered s b).1.last_error_time = 0 := by
  unfold buffered; split <;> exact h

lemma errInv_clean (s : Sender) (b : List Nat)
    (h : s.last_error = none → s.last_error_time = 0) :
    (clean s b).1.last_error = none → (clean s b).1.last_error_time = 0 := by
  unfold clean; split <;> exact h

lemma errInv_close (s : Sender)
    (h : s.last_error = none → s.last_error_time = 0) :
    s.close.last_error = none → s.close.last_error_time = 0 := by
  unfold Sender.close; split <;> exact h

lemma errInv_set_last_error (s : Sender) (e : Option PyExc) (now : Rat) :
    (set_last_error s e now).last_error = none →
      (set_last_error s e now).last_error_time = 0 := by
  cases e
  · intro _; rfl
  · intro hn; exact absurd hn (by simp [set_last_error])

lemma errInv_get_writer (s : Sender) (now : Rat) (co : ConnectOutcome)
    (h : s.last_error = none → s.last_error_time = 0) :
    (get_writer s now co).state.last_error = none →
      (get_writer s now co).state.last_error_time = 0 := by
  unfold get_writer
  split
  · exact h
  · split
    · exact h
    · cases co
      · exact h
      · exact errInv_set_last_error s _ now

lemma errInv_async_send (s : Sender) (bytes : List Nat) (env : SendEnv)
    (h : s.last_error = none → s.last_error_time = 0) :
    (async_send s bytes env).state.last_error = none →
      (async_send s bytes env).state.last_error_time = 0 := by
  rw [async_send_state_eq]
  simp only [async_send_internal]
  repeat' split
  all_goals
    first
      | exact errInv_clean _ _ (errInv_get_writer _ _ _ (errInv_buffered _ _ h))
      | (intro _; rfl)
      | exact errInv_close _ (errInv_clean _ _ (errInv_set_last_error _ _ _))
      | exact errInv_clean _ _ (errInv_set_last_error _ _ _)
      | exact errInv_get_writer _ _ _ (errInv_buffered _ _ h)

lemma errInv_emit (packb : MP → Option (List Nat)) (tb : String) (s : Sender)
    (label : String) (ts : Rat) (data : MP) (env : SendEnv) (r : ASResult)
    (hr : async_emit_with_time packb tb s label ts data env = some r)
    (h : s.last_error = none → s.last_error_time = 0) :
    r.state.last_error = none → r.state.last_error_time = 0 := by
  unfold async_emit_with_time at hr
  cases het : EventTime.new ts with
  | none => rw [het] at hr; exact absurd hr (by simp)
  | some et =>
    simp only [het] at hr
    cases hmp : make_packet packb s.tag label et data with
    | some bs =>
      simp only [hmp, Option.some.injEq] at hr
      obtain rfl : async_send s bs env = r := hr
      exact errInv_async_send _ _ _ h
    | none =>
      simp only [hmp, set_last_error] at hr
      cases hmp2 : make_packet packb s.tag label et (diagRecord tb) with
      | some bs =>
        simp only [hmp2, Option.some.injEq] at hr
        obtain rfl :
            async_send
              { s with last_error := some PyExc.serializationError,
                       last_error_time := env.now } bs env = r := hr
        exact errInv_async_send _ _ _
          (errInv_set_last_error s (some PyExc.serializationError) env.now)
      | none => rw [hmp2] at hr; exact absurd hr (by simp)

end Aiofluent

namespace Aiofluent

/-- Claim C7 (amended): in every reachable sender state, if `last_error` is
absent then `last_error_time` is 0.  The converse direction of the original
claim is false: a successful send resets `last_error_time` to 0 but leaves
`last_error` set (see the counterexample). -/
theorem reachable_no_error_time_zero (s : Sender) (h : Reachable s) :
    s.last_error = none → s.last_error_time = 0 := by
  induction h with
  | init => intro _; rfl
  | step _ hstep ih =>
    cases hstep with
    | send bytes env => exact errInv_async_send _ _ _ ih
    | acquire now co => exact errInv_get_writer _ _ _ ih
    | closeOp => exact errInv_close _ ih
    | clearErr => intro _; rfl
    | setErr e now => exact errInv_set_last_error _ _ _
    | emit packb tb label ts data env r hsome =>
      exact errInv_emit _ _ _ _ _ _ _ _ hsome ih

/-- Claim C7 witness: the amended invariant instantiated at a freshly
constructed sender, whose hypotheses hold by construction. -/
theorem reachable_no_error_time_zero_witness :
    (mkSender "app" 1048576 3 30 10 false).last_error_time = 0 :=
  reachable_no_error_time_zero _ (Reachable.init "app" 1048576 3 30 10 false) rfl

/-- Claim C7 counterexample: a reachable state (connect failure at time 100
recorded into `last_error`, then a successful send at time 200 which resets
only `last_error_time`) in which `last_error_time = 0` while `last_error` is
still present, refuting the claimed equivalence. -/
theorem last_error_iff_counterexample :
    Reachable afterFailThenSuccess ∧
      afterFailThenSuccess.last_error_time = 0 ∧
      afterFailThenSuccess.last_error ≠ none := by
  refine ⟨?_, ?_, ?_⟩
  · exact Reachable.step
      (Reachable.step (Reachable.init "app" 1048576 3 30 10 false)
        (Step.send _ [1] ⟨100, .fail .otherError, none⟩))
      (Step.send _ [2] ⟨200, .ok, none⟩)
  · norm_num [afterFailThenSuccess, async_send, async_send_internal, buffered,
      get_writer, clean, set_last_error, mkSender, pendingsTruthy, Sender.close]
  · have hsome : afterFailThenSuccess.last_error = some PyExc.otherError := by
      norm_num [afterFailThenSuccess, async_send, async_send_internal, buffered,
        get_writer, clean, set_last_error, mkSender, pendingsTruthy, Sender.close]
    rw [hsome]
    simp

end Aiofluent

namespace Aiofluent

lemma handleInv_buffered (s : Sender) (b : List Nat)
    (h : s.writer = false → s.reader = false) :
    (buffered s b).1.writer = false → (buffered s b).1.reader = false := by
  unfold buffered; split <;> exact h

lemma handleInv_clean (s : Sender) (b : List Nat)
    (h : s.writer = false → s.reader = false) :
    (clean s b).1.writer = false → (clean s b).1.reader = false := by
  unfold clean; split <;> exact h

lemma handleInv_close (s : Sender)
    (h : s.writer = false → s.reader = false) :
    s.close.writer = false → s.close.reader = false := by
  unfold Sender.close
  split
  · intro _; rfl
  · exact h

lemma handleInv_set_last_error (s : Sender) (e : Option PyExc) (now : Rat)
    (h : s.writer = false → s.reader = false) :
    (set_last_error s e now).writer = false →
      (set_last_error s e now).reader = false := by
  cases e <;> exact h

lemma handleInv_get_writer (s : Sender) (now : Rat) (co : ConnectOutcome)
    (h : s.writer = false → s.reader = false) :
    (get_writer s now co).state.writer = false →
      (get_writer s now co).state.reader = false := by
  unfold get_writer
  split
  · exact h
  · split
    · exact h
    · cases co
      · intro hw; exact absurd hw (by simp)
      · exact handleInv_set_last_error s _ now h

lemma handleInv_async_send (s : Sender) (bytes : List Nat) (env : SendEnv)
    (h : s.writer = false → s.reader = false) :
    (async_send s bytes env).state.writer = false →
      (async_send s bytes env).state.reader = false := by
  rw [async_send_state_eq]
  simp only [async_send_internal]
  repeat' split
  all_goals
    first
      | exact handleInv_clean _ _ (handleInv_get_writer _ _ _
          (handleInv_buffered _ _ h))
      | exact handleInv_get_writer _ _ _ (handleInv_buffered _ _ h)
      | exact handleInv_close _ (handleInv_clean _ _ (handleInv_set_last_error
          _ _ _ (handleInv_get_writer _ _ _ (handleInv_buffered _ _ h))))

lemma handleInv_emit (packb : MP → Option (List Nat)) (tb : String)
    (s : Sender) (label : String) (ts : Rat) (data : MP) (env : SendEnv)
    (r : ASResult)
    (hr : async_emit_with_time packb tb s label ts data env = some r)
    (h : s.writer = false → s.reader = false) :
    r.state.writer = false → r.state.reader = false := by
  unfold async_emit_with_time at hr
  cases het : EventTime.new ts with
  | none => rw [het] at hr; exact absurd hr (by simp)
  | some et =>
    simp only [het] at hr
    cases hmp : make_packet packb s.tag label et data with
    | some bs =>
      simp only [hmp, Option.some.injEq] at hr
      obtain rfl : async_send s bs env = r := hr
      exact handleInv_async_send _ _ _ h
    | none =>
      simp only [hmp, set_last_error] at hr
      cases hmp2 : make_packet packb s.tag label et (diagRecord tb) with
      | some bs =>
        simp only [hmp2, Option.some.injEq] at hr
        obtain rfl :
            async_send
              { s with last_error := some PyExc.serializationError,
                       last_error_time := env.now } bs env = r := hr
        exact handleInv_async_send _ _ _ h
      | none => rw [hmp2] at hr; exact absurd hr (by simp)

lemma reachable_handleInv (s : Sender) (h : Reachable s) :
    s.writer = false → s.reader = false := by
  induction h with
  | init => intro _; rfl
  | step _ hstep ih =>
    cases hstep with
    | send bytes env => exact handleInv_async_send _ _ _ ih
    | acquire now co => exact handleInv_get_writer _ _ _ ih
    | closeOp => exact handleInv_close _ ih
    | clearErr => exact ih
    | setErr e now => exact handleInv_set_last_error _ _ _ ih
    | emit packb tb label ts data env r hsome =>
      exact handleInv_emit _ _ _ _ _ _ _ _ hsome ih

/-- Claim C10: in any reachable state, `close` modifies only the connection
handles — afterwards both `reader` and `writer` are absent — and leaves the
pending buffer, `last_error`, `last_error_time`, `error_count` and every
configuration field unchanged. -/
theorem close_touches_only_handles (s : Sender) (h : Reachable s) :
    s.close.pendings = s.pendings ∧ s.close.last_error = s.last_error ∧
      s.close.last_error_time = s.last_error_time ∧
      s.close.error_count = s.error_count ∧
      s.close.tag = s.tag ∧ s.close.bufmax = s.bufmax ∧
      s.close.timeout = s.timeout ∧
      s.close.retry_timeout = s.retry_timeout ∧
      s.close.error_count_limit = s.error_count_limit ∧
      s.close.hasOverflowHandler = s.hasOverflowHandler ∧
      s.close.writer = false ∧ s.close.reader = false := by
  have hh := reachable_handleInv s h
  unfold Sender.close
  by_cases hw : s.writer = true
  · simp [hw]
  · have hw' : s.writer = false := by simpa using hw
    simp [hw', hh hw']

/-- Claim C10 witness: the frame property at a concrete reachable state (a
fresh sender). -/
theorem close_touches_only_handles_witness :
    (mkSender "app" 1048576 3 30 10 false).close.pendings =
        (mkSender "app" 1048576 3 30 10 false).pendings ∧
      (mkSender "app" 1048576 3 30 10 false).close.last_error =
        (mkSender "app" 1048576 3 30 10 false).last_error ∧
      (mkSender "app" 1048576 3 30 10 false).close.last_error_time =
        (mkSender "app" 1048576 3 30 10 false).last_error_time ∧
      (mkSender "app" 1048576 3 30 10 false).close.error_count =
        (mkSender "app" 1048576 3 30 10 false).error_count ∧
      (mkSender "app" 1048576 3 30 10 false).close.tag =
        (mkSender "app" 1048576 3 30 10 false).tag ∧
      (mkSender "app" 1048576 3 30 10 false).close.bufmax =
        (mkSender "app" 1048576 3 30 10 false).bufmax ∧
      (mkSender "app" 1048576 3 30 10 false).close.timeout =
        (mkSender "app" 1048576 3 30 10 false).timeout ∧
      (mkSender "app" 1048576 3 30 10 false).close.retry_timeout =
        (mkSender "app" 1048576 3 30 10 false).retry_timeout ∧
      (mkSender "app" 1048576 3 30 10 false).close.error_count_limit =
        (mkSender "app" 1048576 3 30 10 false).error_count_limit ∧
      (mkSender "app" 1048576 3 30 10 false).close.hasOverflowHandler =
        (mkSender "app" 1048576 3 30 10 false).hasOverflowHandler ∧
      (mkSender "app" 1048576 3 30 10 false).close.writer = false ∧
      (mkSender "app" 1048576 3 30 10 false).close.reader = false :=
  close_touches_only_handles _ (Reachable.init "app" 1048576 3 30 10 false)

end Aiofluent

namespace Aiofluent

lemma async_send_internal_noWriter (s : Sender) (bytes : List Nat)
    (env : SendEnv)
    (hw : (get_writer (buffered s bytes).1 env.now env.connect).writer = false) :
    async_send_internal s bytes env =
      ⟨.ok false,
       (clean (get_writer (buffered s bytes).1 env.now env.connect).state
          (buffered s bytes).2).1,
       (clean (get_writer (buffered s bytes).1 env.now env.connect).state
          (buffered s bytes).2).2⟩ := by
  simp [async_send_internal, hw]

lemma async_send_internal_success (s : Sender) (bytes : List Nat)
    (env : SendEnv)
    (hw : (get_writer (buffered s bytes).1 env.now env.connect).writer = true)
    (he : env.write = none) :
    async_send_internal s bytes env =
      ⟨.ok true,
       { (get_writer (buffered s bytes).1 env.now env.connect).state with
          pendings := none, last_error_time := 0 },
       []⟩ := by
  simp [async_send_internal, hw, he]

lemma async_send_internal_transport (s : Sender) (bytes : List Nat)
    (env : SendEnv) (e : PyExc)
    (hw : (get_writer (buffered s bytes).1 env.now env.connect).writer = true)
    (he : env.write = some e) (ht : e.isTransportExc = true) :
    async_send_internal s bytes env =
      ⟨.ok false,
       ((clean (set_last_error
          (get_writer (buffered s bytes).1 env.now env.connect).state
          (some e) env.now) (buffered s bytes).2).1).close,
       (clean (set_last_error
          (get_writer (buffered s bytes).1 env.now env.connect).state
          (some e) env.now) (buffered s bytes).2).2⟩ := by
  simp [async_send_internal, hw, he, ht]

lemma async_send_internal_internalExc (s : Sender) (bytes : List Nat)
    (env : SendEnv) (e : PyExc)
    (hw : (get_writer (buffered s bytes).1 env.now env.connect).writer = true)
    (he : env.write = some e) (ht : e.isTransportExc = false)
    (hc : e.isExceptionClass = true) :
    async_send_internal s bytes env =
      ⟨.ok false,
       (if (clean (set_last_error
              { (get_writer (buffered s bytes).1 env.now env.connect).state with
                 error_count := (get_writer (buffered s bytes).1 env.now
                   env.connect).state.error_count + 1 }
              (some e) env.now) (buffered s bytes).2).1.error_count_limit <
            (clean (set_last_error
              { (get_writer (buffered s bytes).1 env.now env.connect).state with
                 error_count := (get_writer (buffered s bytes).1 env.now
                   env.connect).state.error_count + 1 }
              (some e) env.now) (buffered s bytes).2).1.error_count then
          ((clean (set_last_error
            { (get_writer (buffered s bytes).1 env.now env.connect).state with
               error_count := (get_writer (buffered s bytes).1 env.now
                 env.connect).state.error_count + 1 }
            (some e) env.now) (buffered s bytes).2).1).close
        else
          (clean (set_last_error
            { (get_writer (buffered s bytes).1 env.now env.connect).state with
               error_count := (get_writer (buffered s bytes).1 env.now
                 env.connect).state.error_count + 1 }
            (some e) env.now) (buffered s bytes).2).1),
       (clean (set_last_error
          { (get_writer (buffered s bytes).1 env.now env.connect).state with
             error_count := (get_writer (buffered s bytes).1 env.now
               env.connect).state.error_count + 1 }
          (some e) env.now) (buffered s bytes).2).2⟩ := by
  simp [async_send_internal, hw, he, ht, hc]

lemma async_send_internal_uncaught (s : Sender) (bytes : List Nat)
    (env : SendEnv) (e : PyExc)
    (hw : (get_writer (buffered s bytes).1 env.now env.connect).writer = true)
    (he : env.write = some e) (ht : e.isTransportExc = false)
    (hc : e.isExceptionClass = false) :
    async_send_internal s bytes env =
      ⟨.error e,
       (get_writer (buffered s bytes).1 env.now env.connect).state, []⟩ := by
  simp [async_send_internal, hw, he, ht, hc]

end Aiofluent

namespace Aiofluent

/-- Claim C8 (amended): during any send, `error_count` is incremented exactly
when a writer was obtained and the write raised an internal (non-transport)
`Exception` — never on transport or connect failures; the acquisition phase
either leaves the counter unchanged or resets it to 0, and it resets it to 0
precisely by establishing a new connection (writer absent, no cooldown,
factory succeeds).  A successful send does *not* reset the counter (see the
counterexample). -/
theorem error_count_policy (s : Sender) (bytes : List Nat) (env : SendEnv) :
    ((async_send s bytes env).state.error_count =
      (get_writer (buffered s bytes).1 env.now env.connect).state.error_count +
        (if (get_writer (buffered s bytes).1 env.now env.connect).writer = true
            ∧ isInternalWrite env.write = true then 1 else 0))
    ∧ ((get_writer (buffered s bytes).1 env.now env.connect).state.error_count
          = 0
        ∨ (get_writer (buffered s bytes).1 env.now env.connect).state.error_count
            = s.error_count)
    ∧ (s.writer = false → env.connect = .ok →
        s.last_error_time + s.retry_timeout ≤ env.now →
        (get_writer (buffered s bytes).1 env.now env.connect).state.error_count
          = 0) := by
  refine ⟨?_, ?_, ?_⟩
  · rw [async_send_state_eq]
    by_cases hw :
        (get_writer (buffered s bytes).1 env.now env.connect).writer = false
    · have hpol :
          (if (get_writer (buffered s bytes).1 env.now env.connect).writer
                = true ∧ isInternalWrite env.write = true then 1 else 0) = 0 :=
        if_neg (by simp [hw])
      rw [async_send_internal_noWriter s bytes env hw, hpol]
      simpa using (clean_fst_frame _ _).2.2.2.2.1
    · have hw' :
          (get_writer (buffered s bytes).1 env.now env.connect).writer = true := by
        simpa using hw
      rcases he : env.write with _ | e
      · have hpol :
            (if (get_writer (buffered s bytes).1 env.now env.connect).writer
                  = true ∧ isInternalWrite none = true then 1 else 0) = 0 :=
          if_neg (by simp [isInternalWrite])
        rw [async_send_internal_success s bytes env hw' he, hpol]
        simp
      · by_cases ht : e.isTransportExc = true
        · have hpol :
              (if (get_writer (buffered s bytes).1 env.now env.connect).writer
                    = true ∧ isInternalWrite (some e) = true then 1 else 0)
                = 0 :=
            if_neg (by simp [isInternalWrite, ht])
          rw [async_send_internal_transport s bytes env e hw' he ht, hpol]
          rw [Nat.add_zero]
          show ((clean _ _).1).close.error_count = _
          rw [(close_frame_fields _).2.2.2.1, (clean_fst_frame _ _).2.2.2.2.1]
          simp [set_last_error]
        · have ht' : e.isTransportExc = false := by simpa using ht
          by_cases hc : e.isExceptionClass = true
          · have hpol :
                (if (get_writer (buffered s bytes).1 env.now env.connect).writer
                      = true ∧ isInternalWrite (some e) = true then 1 else 0)
                  = 1 :=
              if_pos ⟨hw', by simp [isInternalWrite, ht', hc]⟩
            rw [async_send_internal_internalExc s bytes env e hw' he ht' hc,
              hpol]
            split
            · show ((clean _ _).1).close.error_count = _
              rw [(close_frame_fields _).2.2.2.1,
                (clean_fst_frame _ _).2.2.2.2.1]
              simp [set_last_error]
            · show ((clean _ _).1).error_count = _
              rw [(clean_fst_frame _ _).2.2.2.2.1]
              simp [set_last_error]
          · have hc' : e.isExceptionClass = false := by simpa using hc
            have hpol :
                (if (get_writer (buffered s bytes).1 env.now env.connect).writer
                      = true ∧ isInternalWrite (some e) = true then 1 else 0)
                  = 0 :=
              if_neg (by simp [isInternalWrite, ht', hc'])
            rw [async_send_internal_uncaught s bytes env e hw' he ht' hc', hpol]
            simp
  · unfold get_writer
    split
    · right; exact (buffered_fst_frame s bytes).2.2.2.2.1
    · split
      · right; exact (buffered_fst_frame s bytes).2.2.2.2.1
      · split
        · left; rfl
        · right
          simp only [set_last_error]
          exact (buffered_fst_frame s bytes).2.2.2.2.1
  · intro hw0 hco hcool
    have hf := buffered_fst_frame s bytes
    unfold get_writer
    rw [if_neg (by rw [hf.1, hw0]; simp),
      if_neg (by
        rw [hf.2.2.2.1, hf.2.2.2.2.2.2.2.2.2]
        exact not_lt.mpr hcool),
      hco]

/-- Claim C8 witness: the connection-reset part of the amended policy at a
concrete input (fresh sender, connect succeeds at time 100). -/
theorem error_count_policy_witness :
    (get_writer (buffered (mkSender "app" 1048576 3 30 10 false) [1]).1
        100 .ok).state.error_count = 0 :=
  (error_count_policy (mkSender "app" 1048576 3 30 10 false) [1]
      ⟨100, .ok, none⟩).2.2 rfl rfl (by norm_num [mkSender])

/-- Claim C8 counterexample: after an internal failure (`error_count = 1`),
a successful send returns `True` but leaves `error_count` at 1, so the
counter is not "reset to 0 by every successful send". -/
theorem error_count_reset_counterexample :
    (async_send afterInternalFail [2] ⟨200, .ok, none⟩).result
        = .ok (some true) ∧
      (async_send afterInternalFail [2] ⟨200, .ok, none⟩).state.error_count
        = 1 := by
  constructor <;>
    norm_num [afterInternalFail, async_send, async_send_internal, buffered,
      get_writer, clean, set_last_error, mkSender, pendingsTruthy, Sender.close,
      PyExc.isTransportExc, PyExc.isExceptionClass]

end Aiofluent

namespace Aiofluent

lemma isInternalWrite_elim (w : Option PyExc) (h : isInternalWrite w = true) :
    ∃ e, w = some e ∧ e.isTransportExc = false ∧ e.isExceptionClass = true := by
  rcases w with _ | e
  · simp [isInternalWrite] at h
  · simp only [isInternalWrite, Bool.and_eq_true, Bool.not_eq_true'] at h
    exact ⟨e, rfl, h.1, h.2⟩

lemma internal_fail_step (s : Sender) (bytes : List Nat) (env : SendEnv)
    (e : PyExc) (hw : s.writer = true) (he : env.write = some e)
    (ht : e.isTransportExc = false) (hc : e.isExceptionClass = true) :
    (async_send s bytes env).state.error_count = s.error_count + 1 ∧
    (async_send s bytes env).state.error_count_limit = s.error_count_limit ∧
    (async_send s bytes env).state.writer =
      (if s.error_count_limit < s.error_count + 1 then false else true) := by
  have hbw : (buffered s bytes).1.writer = true := by
    rw [buffered_fst_writer]; exact hw
  have hgw : get_writer (buffered s bytes).1 env.now env.connect =
      ⟨true, (buffered s bytes).1, 0⟩ := by
    unfold get_writer; rw [if_pos hbw]
  have hgww : (get_writer (buffered s bytes).1 env.now env.connect).writer
      = true := by rw [hgw]
  rw [async_send_state_eq,
    async_send_internal_internalExc s bytes env e hgww he ht hc]
  simp only [hgw]
  have h1 : (clean (set_last_error
      { (buffered s bytes).1 with
         error_count := (buffered s bytes).1.error_count + 1 }
      (some e) env.now) (buffered s bytes).2).1.error_count
      = s.error_count + 1 := by
    rw [(clean_fst_frame _ _).2.2.2.2.1]
    simp [set_last_error, (buffered_fst_frame s bytes).2.2.2.2.1]
  have h2 : (clean (set_last_error
      { (buffered s bytes).1 with
         error_count := (buffered s bytes).1.error_count + 1 }
      (some e) env.now) (buffered s bytes).2).1.error_count_limit
      = s.error_count_limit := by
    rw [(clean_fst_frame _ _).2.2.2.2.2]
    simp [set_last_error, (buffered_fst_frame s bytes).2.2.2.2.2.1]
  have h3 : (clean (set_last_error
      { (buffered s bytes).1 with
         error_count := (buffered s bytes).1.error_count + 1 }
      (some e) env.now) (buffered s bytes).2).1.writer = true := by
    rw [(clean_fst_frame _ _).1]
    simp [set_last_error, hbw]
  refine ⟨?_, ?_, ?_⟩
  · rw [h2, h1]
    split
    · show ((clean _ _).1).close.error_count = _
      rw [(close_frame_fields _).2.2.2.1, h1]
    · exact h1
  · rw [h2, h1]
    split
    · show ((clean _ _).1).close.error_count_limit = _
      rw [(close_frame_fields _).2.2.2.2, h2]
    · exact h2
  · rw [h2, h1]
    split
    · show ((clean _ _).1).close.writer = _
      unfold Sender.close
      rw [if_pos h3]
    · rw [h3]

lemma sendSeq_cons (s : Sender) (op : List Nat × SendEnv)
    (rest : List (List Nat × SendEnv)) :
    sendSeq s (op :: rest) = sendSeq (async_send s op.1 op.2).state rest := rfl

lemma sendSeq_internal_fail (ops : List (List Nat × SendEnv)) :
    ∀ s : Sender, s.writer = true →
      (∀ op ∈ ops, isInternalWrite op.2.write = true) →
      s.error_count + ops.length ≤ s.error_count_limit →
      (sendSeq s ops).writer = true ∧
        (sendSeq s ops).error_count = s.error_count + ops.length ∧
        (sendSeq s ops).error_count_limit = s.error_count_limit := by
  induction ops with
  | nil =>
    intro s hw _ _
    exact ⟨hw, by simp [sendSeq], rfl⟩
  | cons op rest ih =>
    intro s hw hops hbound
    obtain ⟨e, he, ht, hc⟩ := isInternalWrite_elim op.2.write (hops op (by simp))
    have hstep := internal_fail_step s op.1 op.2 e hw he ht hc
    have hnoclose : ¬ s.error_count_limit < s.error_count + 1 := by
      simp only [List.length_cons] at hbound
      omega
    have hw2 : (async_send s op.1 op.2).state.writer = true := by
      rw [hstep.2.2, if_neg hnoclose]
    have hrest := ih (async_send s op.1 op.2).state hw2
      (fun op' h' => hops op' (List.mem_cons_of_mem _ h'))
      (by
        rw [hstep.1, hstep.2.1]
        simp only [List.length_cons] at hbound
        omega)
    rw [sendSeq_cons]
    refine ⟨hrest.1, ?_, ?_⟩
    · rw [hrest.2.1, hstep.1, List.length_cons]
      omega
    · rw [hrest.2.2, hstep.2.1]

/-- Claim C5: starting from an open connection with `error_count = 0` and
`error_count_limit = K`, K consecutive sends that each raise an internal
(non-transport) exception leave the connection open, and a (K+1)-th such
send closes it. -/
theorem error_count_threshold (K : Nat) (s : Sender)
    (ops : List (List Nat × SendEnv)) (hw : s.writer = true)
    (hc : s.error_count = 0) (hl : s.error_count_limit = K)
    (hops : ∀ op ∈ ops, isInternalWrite op.2.write = true) :
    (ops.length = K → (sendSeq s ops).writer = true) ∧
    (ops.length = K + 1 → (sendSeq s ops).writer = false) := by
  constructor
  · intro hlen
    exact (sendSeq_internal_fail ops s hw hops (by omega)).1
  · intro hlen
    rcases ops.eq_nil_or_concat with rfl | ⟨init, last, rfl⟩
    · simp at hlen
    · have hlinit : init.length = K := by
        rw [List.concat_eq_append, List.length_append] at hlen
        simpa using hlen
      have hfirst := sendSeq_internal_fail init s hw
        (fun op h => hops op (by
          rw [List.concat_eq_append]
          exact List.mem_append_left _ h))
        (by omega)
      obtain ⟨e, he, ht, hc'⟩ := isInternalWrite_elim last.2.write
        (hops last (by rw [List.concat_eq_append]; simp))
      have hstep := internal_fail_step (sendSeq s init) last.1 last.2 e
        hfirst.1 he ht hc'
      have hsplit : sendSeq s (init.concat last)
          = (async_send (sendSeq s init) last.1 last.2).state := by
        rw [List.concat_eq_append]
        unfold sendSeq
        rw [List.foldl_append]
        rfl
      have hcond : (sendSeq s init).error_count_limit
          < (sendSeq s init).error_count + 1 := by
        rw [hfirst.2.1, hfirst.2.2]
        omega
      rw [hsplit, hstep.2.2, if_pos hcond]

/-- Claim C5 witness: with `error_count_limit = 1`, one internal failure
keeps the connection open and a second closes it. -/
theorem error_count_threshold_witness :
    ((sendSeq ⟨"a", 10, 3, 30, 1, false, none, true, true, none, 0, 0⟩
        [([1], ⟨0, .ok, some .otherError⟩)]).writer = true)
    ∧ ((sendSeq ⟨"a", 10, 3, 30, 1, false, none, true, true, none, 0, 0⟩
        [([1], ⟨0, .ok, some .otherError⟩),
         ([2], ⟨0, .ok, some .otherError⟩)]).writer = false) :=
  ⟨(error_count_threshold 1 _ _ rfl rfl rfl
      (by simp [isInternalWrite, PyExc.isTransportExc,
        PyExc.isExceptionClass])).1 rfl,
   (error_count_threshold 1 _ _ rfl rfl rfl
      (by simp [isInternalWrite, PyExc.isTransportExc,
        PyExc.isExceptionClass])).2 rfl⟩

end Aiofluent

namespace Aiofluent

lemma clean_overflow (x : Sender) (b Q : List Nat)
    (hp : x.pendings = some Q) (hne : Q ≠ []) (hlen : x.bufmax < Q.length)
    (hh : x.hasOverflowHandler = true) :
    clean x b = ({ x with pendings := none }, [Q]) := by
  have htr : pendingsTruthy x.pendings = true := by
    rw [hp]
    rcases Q with _ | ⟨q, qt⟩
    · exact absurd rfl hne
    · rfl
  unfold clean
  rw [if_pos ⟨htr, by rw [hp]; exact hlen⟩, hh, hp]
  simp

lemma clean_store (x : Sender) (b : List Nat)
    (h : ¬(pendingsTruthy x.pendings = true ∧
        x.bufmax < (x.pendings.getD []).length)) :
    clean x b = ({ x with pendings := some b }, []) := by
  unfold clean
  rw [if_neg h]

lemma clean_fst_bufmax (x : Sender) (b : List Nat) :
    (clean x b).1.bufmax = x.bufmax := by
  unfold clean; split <;> rfl

lemma close_config (s : Sender) :
    s.close.bufmax = s.bufmax ∧ s.close.hasOverflowHandler
      = s.hasOverflowHandler := by
  unfold Sender.close; split <;> exact ⟨rfl, rfl⟩

lemma buffered_snd_of_pendings (s : Sender) (A bytes : List Nat)
    (hp : s.pendings = some A) : (buffered s bytes).2 = A ++ bytes := by
  unfold buffered
  rw [hp]
  rcases A with _ | ⟨a, t⟩
  · rfl
  · rfl

lemma async_send_state_bufmax (s : Sender) (bytes : List Nat) (env : SendEnv) :
    (async_send s bytes env).state.bufmax = s.bufmax := by
  have hb : (buffered s bytes).1.bufmax = s.bufmax :=
    (buffered_fst_frame s bytes).2.2.2.2.2.2.1
  have hg : (get_writer (buffered s bytes).1 env.now env.connect).state.bufmax
      = s.bufmax := by
    rw [(get_writer_state_frame _ _ _).2.1, hb]
  rw [async_send_state_eq]
  simp only [async_send_internal]
  repeat' split
  all_goals
    first
      | (rw [clean_fst_bufmax]; exact hg)
      | exact hg
      | (rw [(close_config _).1, clean_fst_bufmax]
         show ((get_writer (buffered s bytes).1 env.now env.connect).state).bufmax = s.bufmax
         exact hg)

lemma failed_send_pendings (s : Sender) (bytes : List Nat) (env : SendEnv)
    (hfail : (async_send s bytes env).result = .ok (some false))
    (hno : ¬ s.bufmax < (buffered s bytes).2.length) :
    (async_send s bytes env).state.pendings = some ((buffered s bytes).2) := by
  rw [async_send_result_ok] at hfail
  have hgf := get_writer_state_frame (buffered s bytes).1 env.now env.connect
  have hcond : ¬(pendingsTruthy
      (get_writer (buffered s bytes).1 env.now env.connect).state.pendings
        = true ∧
      (get_writer (buffered s bytes).1 env.now env.connect).state.bufmax <
        (((get_writer (buffered s bytes).1 env.now
            env.connect).state.pendings).getD []).length) := by
    rw [hgf.1, hgf.2.1, (buffered_fst_frame s bytes).2.2.2.2.2.2.1]
    rcases hsp : s.pendings with _ | Q
    · have hbuf : buffered s bytes = (s, bytes) := by
        unfold buffered; rw [hsp]; rfl
      rw [hbuf]
      simp [pendingsTruthy, hsp]
    · rcases Q with _ | ⟨q, qt⟩
      · have hbuf : buffered s bytes = (s, bytes) := by
          unfold buffered; rw [hsp]; rfl
        rw [hbuf]
        simp [pendingsTruthy, hsp]
      · have hbuf : buffered s bytes
            = ({ s with pendings := some ((q :: qt) ++ bytes) },
               (q :: qt) ++ bytes) := by
          unfold buffered; rw [hsp]; rfl
        rw [hbuf]
        rintro ⟨-, hlt⟩
        exact hno (by rw [hbuf]; simpa using hlt)
  have hstore : ∀ x : Sender,
      x.pendings
          = (get_writer (buffered s bytes).1 env.now env.connect).state.pendings →
      x.bufmax
          = (get_writer (buffered s bytes).1 env.now env.connect).state.bufmax →
      clean x ((buffered s bytes).2)
        = ({ x with pendings := some ((buffered s bytes).2) }, []) := by
    intro x hxp hxb
    refine clean_store x _ ?_
    rw [hxp, hxb]
    exact hcond
  by_cases hw :
      (get_writer (buffered s bytes).1 env.now env.connect).writer = false
  · rw [async_send_state_eq, async_send_internal_noWriter s bytes env hw]
    show (clean _ _).1.pendings = _
    rw [hstore _ rfl rfl]
  · have hw' :
        (get_writer (buffered s bytes).1 env.now env.connect).writer = true := by
      simpa using hw
    rcases he : env.write with _ | e
    · rw [async_send_internal_success s bytes env hw' he] at hfail
      simp at hfail
    · by_cases ht : e.isTransportExc = true
      · rw [async_send_state_eq,
          async_send_internal_transport s bytes env e hw' he ht]
        show ((clean _ _).1).close.pendings = _
        rw [(close_frame_fields _).1,
          hstore (set_last_error
            (get_writer (buffered s bytes).1 env.now env.connect).state
            (some e) env.now) rfl rfl]
      · have ht' : e.isTransportExc = false := by simpa using ht
        by_cases hc : e.isExceptionClass = true
        · rw [async_send_state_eq,
            async_send_internal_internalExc s bytes env e hw' he ht' hc]
          split
          · show ((clean _ _).1).close.pendings = _
            rw [(close_frame_fields _).1,
              hstore (set_last_error
                { (get_writer (buffered s bytes).1 env.now env.connect).state
                    with error_count := (get_writer (buffered s bytes).1
                      env.now env.connect).state.error_count + 1 }
                (some e) env.now) rfl rfl]
          · show (clean _ _).1.pendings = _
            rw [hstore (set_last_error
              { (get_writer (buffered s bytes).1 env.now env.connect).state
                  with error_count := (get_writer (buffered s bytes).1
                    env.now env.connect).state.error_count + 1 }
              (some e) env.now) rfl rfl]
        · have hc' : e.isExceptionClass = false := by simpa using hc
          rw [async_send_internal_uncaught s bytes env e hw' he ht' hc']
            at hfail
          simp at hfail

end Aiofluent

namespace Aiofluent

/-- Claim C6: two sequential failed sends of payloads A then B, starting with
no pending buffer and with the combined size within `bufmax`, leave a single
pending buffer equal to `A ++ B` in arrival order. -/
theorem buffer_coalescing (s : Sender) (A B : List Nat) (e1 e2 : SendEnv)
    (hp : s.pendings = none) (hlen : (A ++ B).length ≤ s.bufmax)
    (h1 : (async_send s A e1).result = .ok (some false))
    (h2 : (async_send (async_send s A e1).state B e2).result
        = .ok (some false)) :
    (async_send (async_send s A e1).state B e2).state.pendings
      = some (A ++ B) := by
  have hb1 : (buffered s A).2 = A := by
    unfold buffered; rw [hp]; rfl
  have hlenA : ¬ s.bufmax < A.length := by
    rw [not_lt]
    calc A.length ≤ (A ++ B).length := by rw [List.length_append]; omega
    _ ≤ s.bufmax := hlen
  have hA : (async_send s A e1).state.pendings = some A := by
    have h := failed_send_pendings s A e1 h1 (by rw [hb1]; exact hlenA)
    rw [hb1] at h
    exact h
  have hbm : (async_send s A e1).state.bufmax = s.bufmax :=
    async_send_state_bufmax s A e1
  have hb2 : (buffered (async_send s A e1).state B).2 = A ++ B :=
    buffered_snd_of_pendings _ A B hA
  have h := failed_send_pendings (async_send s A e1).state B e2 h2
    (by rw [hb2, hbm]; exact not_lt.mpr hlen)
  rw [hb2] at h
  exact h

/-- Claim C6 witness: two concrete failed sends (connection attempts blocked
by the cooldown of a fresh sender with `retry_timeout = 30` at time 5)
coalesce `[1]` then `[2]` into the single buffer `[1, 2]`. -/
theorem buffer_coalescing_witness :
    (mkSender "a" 100 3 30 10 false).pendings = none ∧
    ([1, 2] : List Nat).length ≤ (mkSender "a" 100 3 30 10 false).bufmax ∧
    (async_send (mkSender "a" 100 3 30 10 false) [1]
        ⟨5, .ok, none⟩).result = .ok (some false) ∧
    (async_send (async_send (mkSender "a" 100 3 30 10 false) [1]
        ⟨5, .ok, none⟩).state [2] ⟨6, .ok, none⟩).result = .ok (some false) ∧
    (async_send (async_send (mkSender "a" 100 3 30 10 false) [1]
        ⟨5, .ok, none⟩).state [2] ⟨6, .ok, none⟩).state.pendings
      = some ([1] ++ [2]) := by
  have hf1 : (async_send (mkSender "a" 100 3 30 10 false) [1]
      ⟨5, .ok, none⟩).result = .ok (some false) := by
    norm_num [async_send, async_send_internal, buffered, get_writer, clean,
      set_last_error, mkSender, pendingsTruthy]
  have hf2 : (async_send (async_send (mkSender "a" 100 3 30 10 false) [1]
      ⟨5, .ok, none⟩).state [2] ⟨6, .ok, none⟩).result
      = .ok (some false) := by
    norm_num [async_send, async_send_internal, buffered, get_writer, clean,
      set_last_error, mkSender, pendingsTruthy]
  exact ⟨rfl, by norm_num [mkSender], hf1, hf2,
    buffer_coalescing _ [1] [2] _ _ rfl (by norm_num [mkSender]) hf1 hf2⟩

/-- Claim C3: when the pending buffer already exceeds `bufmax`, an overflow
handler is configured, and a new send fails, the handler is invoked exactly
once — with the pending buffer as it stands at the failure, i.e. the prior
backlog with the new bytes coalesced in (`P ++ B`) — and the pending buffer
is empty afterwards. -/
theorem overflow_policy (s : Sender) (P B : List Nat) (env : SendEnv)
    (hp : s.pendings = some P) (hlen : s.bufmax < P.length)
    (hh : s.hasOverflowHandler = true)
    (hfail : (async_send s B env).result = .ok (some false)) :
    (async_send s B env).overflowCalls = [P ++ B] ∧
      (async_send s B env).state.pendings = none := by
  rcases P with _ | ⟨p0, pt⟩
  · exact absurd hlen (by simp)
  rw [async_send_result_ok] at hfail
  have hbuf : buffered s B
      = ({ s with pendings := some ((p0 :: pt) ++ B) }, (p0 :: pt) ++ B) := by
    unfold buffered; rw [hp]; rfl
  have hb2 : (buffered s B).2 = (p0 :: pt) ++ B := by rw [hbuf]
  have hgf := get_writer_state_frame (buffered s B).1 env.now env.connect
  have hgp : (get_writer (buffered s B).1 env.now env.connect).state.pendings
      = some ((p0 :: pt) ++ B) := by rw [hgf.1, hbuf]
  have hgb : (get_writer (buffered s B).1 env.now env.connect).state.bufmax
      = s.bufmax := by rw [hgf.2.1, hbuf]
  have hgh : (get_writer (buffered s B).1 env.now
      env.connect).state.hasOverflowHandler = true := by
    rw [hgf.2.2.1, hbuf]; exact hh
  have hQlen : s.bufmax < ((p0 :: pt) ++ B).length :=
    lt_of_lt_of_le hlen (by rw [List.length_append]; omega)
  have hover : ∀ x : Sender,
      x.pendings
          = (get_writer (buffered s B).1 env.now env.connect).state.pendings →
      x.bufmax
          = (get_writer (buffered s B).1 env.now env.connect).state.bufmax →
      x.hasOverflowHandler = (get_writer (buffered s B).1 env.now
          env.connect).state.hasOverflowHandler →
      clean x ((buffered s B).2)
        = ({ x with pendings := none }, [(p0 :: pt) ++ B]) := by
    intro x hxp hxb hxh
    rw [hb2]
    exact clean_overflow x _ _ (by rw [hxp]; exact hgp) (by simp)
      (by rw [hxb, hgb]; exact hQlen) (by rw [hxh]; exact hgh)
  by_cases hw : (get_writer (buffered s B).1 env.now env.connect).writer
      = false
  · rw [async_send_overflow_eq, async_send_state_eq,
      async_send_internal_noWriter s B env hw]
    constructor
    · show (clean _ _).2 = _
      rw [hover _ rfl rfl rfl]
    · show (clean _ _).1.pendings = none
      rw [hover _ rfl rfl rfl]
  · have hw' : (get_writer (buffered s B).1 env.now env.connect).writer
        = true := by simpa using hw
    rcases he : env.write with _ | e
    · rw [async_send_internal_success s B env hw' he] at hfail
      simp at hfail
    · by_cases ht : e.isTransportExc = true
      · rw [async_send_overflow_eq, async_send_state_eq,
          async_send_internal_transport s B env e hw' he ht]
        constructor
        · show (clean _ _).2 = _
          rw [hover (set_last_error
            (get_writer (buffered s B).1 env.now env.connect).state
            (some e) env.now) rfl rfl rfl]
        · show ((clean _ _).1).close.pendings = none
          rw [(close_frame_fields _).1,
            hover (set_last_error
              (get_writer (buffered s B).1 env.now env.connect).state
              (some e) env.now) rfl rfl rfl]
      · have ht' : e.isTransportExc = false := by simpa using ht
        by_cases hc : e.isExceptionClass = true
        · rw [async_send_overflow_eq, async_send_state_eq,
            async_send_internal_internalExc s B env e hw' he ht' hc]
          constructor
          · show (clean _ _).2 = _
            rw [hover (set_last_error
              { (get_writer (buffered s B).1 env.now env.connect).state
                  with error_count := (get_writer (buffered s B).1 env.now
                    env.connect).state.error_count + 1 }
              (some e) env.now) rfl rfl rfl]
          · split
            · show ((clean _ _).1).close.pendings = none
              rw [(close_frame_fields _).1,
                hover (set_last_error
                  { (get_writer (buffered s B).1 env.now env.connect).state
                      with error_count := (get_writer (buffered s B).1 env.now
                        env.connect).state.error_count + 1 }
                  (some e) env.now) rfl rfl rfl]
            · show (clean _ _).1.pendings = none
              rw [hover (set_last_error
                { (get_writer (buffered s B).1 env.now env.connect).state
                    with error_count := (get_writer (buffered s B).1 env.now
                      env.connect).state.error_count + 1 }
                (some e) env.now) rfl rfl rfl]
        · have hc' : e.isExceptionClass = false := by simpa using hc
          rw [async_send_internal_uncaught s B env e hw' he ht' hc'] at hfail
          simp at hfail

/-- Claim C3 witness: with `bufmax = 1`, backlog `[9, 9]` and a failing send
of `[7]` (blocked by the cooldown window), the overflow handler is invoked
exactly once with `[9, 9, 7]` and the buffer is emptied. -/
theorem overflow_policy_witness :
    (⟨"a", 1, 3, 30, 10, true, some [9, 9], false, false, none, 0, 0⟩
        : Sender).pendings = some [9, 9] ∧
    (⟨"a", 1, 3, 30, 10, true, some [9, 9], false, false, none, 0, 0⟩
        : Sender).bufmax < ([9, 9] : List Nat).length ∧
    (async_send (⟨"a", 1, 3, 30, 10, true, some [9, 9], false, false, none,
        0, 0⟩ : Sender) [7] ⟨5, .ok, none⟩).result = .ok (some false) ∧
    (async_send (⟨"a", 1, 3, 30, 10, true, some [9, 9], false, false, none,
        0, 0⟩ : Sender) [7] ⟨5, .ok, none⟩).overflowCalls = [[9, 9] ++ [7]] ∧
    (async_send (⟨"a", 1, 3, 30, 10, true, some [9, 9], false, false, none,
        0, 0⟩ : Sender) [7] ⟨5, .ok, none⟩).state.pendings = none := by
  have hf : (async_send (⟨"a", 1, 3, 30, 10, true, some [9, 9], false, false,
      none, 0, 0⟩ : Sender) [7] ⟨5, .ok, none⟩).result
      = .ok (some false) := by
    norm_num [async_send, async_send_internal, buffered, get_writer, clean,
      set_last_error, pendingsTruthy]
  have h := overflow_policy _ [9, 9] [7] ⟨5, .ok, none⟩ rfl (by norm_num)
    rfl hf
  exact ⟨rfl, by norm_num, hf, h.1, h.2⟩

end Aiofluent

namespace Aiofluent

/-- Claim C9: when serializing the caller's record raises inside
`async_emit_with_time`, the failure is recovered locally — the error is
recorded through the `last_error` setter and the substitute diagnostic
packet (the `diagRecord`: level CRITICAL, a message, the captured failure
text) is built and handed to `_async_send` — and the call returns exactly
the result of sending those substituted bytes, so the serialization failure
is never surfaced as a send failure by itself. -/
theorem serialization_fallback (packb : MP → Option (List Nat)) (tb : String)
    (s : Sender) (label : String) (ts : Rat) (data : MP) (env : SendEnv)
    (et : ExtType) (db : List Nat)
    (het : EventTime.new ts = some et)
    (hfailSer : make_packet packb s.tag label et data = none)
    (hdiag : make_packet packb s.tag label et (diagRecord tb) = some db) :
    async_emit_with_time packb tb s label ts data env =
      some (async_send (set_last_error s (some .serializationError) env.now)
        db env) := by
  unfold async_emit_with_time
  simp only [het, hfailSer, set_last_error]
  simp only [hdiag]

/-- Claim C9 witness: a serializer that rejects integer records forces the
fallback; the emit call returns exactly the send of the diagnostic bytes
from the state with the serialization error recorded. -/
theorem serialization_fallback_witness :
    EventTime.new 0 = some ⟨0, [0, 0, 0, 0, 0, 0, 0, 0]⟩ ∧
    make_packet packbFailInt "app" "" ⟨0, [0, 0, 0, 0, 0, 0, 0, 0]⟩
        (.intV 5) = none ∧
    make_packet packbFailInt "app" "" ⟨0, [0, 0, 0, 0, 0, 0, 0, 0]⟩
        (diagRecord "tb") = some [7] ∧
    async_emit_with_time packbFailInt "tb" (mkSender "app" 10 3 30 10 false)
        "" 0 (.intV 5) ⟨5, .ok, none⟩ =
      some (async_send (set_last_error (mkSender "app" 10 3 30 10 false)
        (some .serializationError) 5) [7] ⟨5, .ok, none⟩) := by
  have h1 : EventTime.new 0 = some ⟨0, [0, 0, 0, 0, 0, 0, 0, 0]⟩ := by
    norm_num [EventTime.new, pyInt, pyMod1, struct_pack_II, pack_u32_be]
  have h2 : make_packet packbFailInt "app" ""
      ⟨0, [0, 0, 0, 0, 0, 0, 0, 0]⟩ (.intV 5) = none := by
    simp [make_packet, packbFailInt]
  have h3 : make_packet packbFailInt "app" ""
      ⟨0, [0, 0, 0, 0, 0, 0, 0, 0]⟩ (diagRecord "tb") = some [7] := by
    simp [make_packet, packbFailInt, diagRecord]
  exact ⟨h1, h2, h3,
    serialization_fallback packbFailInt "tb" (mkSender "app" 10 3 30 10 false)
      "" 0 (.intV 5) ⟨5, .ok, none⟩ ⟨0, [0, 0, 0, 0, 0, 0, 0, 0]⟩ [7]
      h1 h2 h3⟩

end Aiofluent
